import Mathlib

/-!
Verification development for the NightDriver-Pi receiver.

The C++ sources (globals.h, ledbuffer.h, socketserver.h, matrixdraw.h,
apptime.h) are shallowly embedded here:

* byte buffers become `List Nat` (each entry one octet);
* the little-endian memory readers of globals.h become arithmetic
  decoders;
* the manual shift-and-or header decoding of socketserver.h is kept in
  its shift-and-or form (`<<<` / `|||`);
* machine doubles used for timestamps and ages become exact rationals
  (`ℚ`), with the cast to `int64_t` modelled as truncation toward zero;
* `std::vector<std::unique_ptr<LEDBuffer>>` becomes
  `List (Option LEDBuffer)` (a `none` entry is a null pointer);
* fallible code returns `Except`/`Option` or a success flag, mirroring
  the thrown `LEDBufferException` and the `bool` returns of the socket
  code;
* the zlib `inflate` calls of DecompressBuffer are an external library
  and enter as an oracle parameter; the wrapper logic around them
  (success only when the stream ends and `total_out` equals the declared
  expanded size) is modelled faithfully.
-/

namespace NightDriverPi

/-! ## globals.h -/

/-- globals.h: `WIFI_COMMAND_PIXELDATA64 = 3`. -/
def WIFI_COMMAND_PIXELDATA64 : Nat := 3

/-- globals.h: `WORDFromMemory`, a little-endian 16-bit load from the
byte at offset `off`. -/
def WORDFromMemory (b : List Nat) (off : Nat) : Nat :=
  b.getD off 0 + 2 ^ 8 * b.getD (off + 1) 0

/-- globals.h: `DWORDFromMemory`, a little-endian 32-bit load. -/
def DWORDFromMemory (b : List Nat) (off : Nat) : Nat :=
  b.getD off 0 + 2 ^ 8 * b.getD (off + 1) 0 + 2 ^ 16 * b.getD (off + 2) 0 +
    2 ^ 24 * b.getD (off + 3) 0

/-- globals.h: `ULONGFromMemory`, a little-endian 64-bit load. -/
def ULONGFromMemory (b : List Nat) (off : Nat) : Nat :=
  b.getD off 0 + 2 ^ 8 * b.getD (off + 1) 0 + 2 ^ 16 * b.getD (off + 2) 0 +
    2 ^ 24 * b.getD (off + 3) 0 + 2 ^ 32 * b.getD (off + 4) 0 +
    2 ^ 40 * b.getD (off + 5) 0 + 2 ^ 48 * b.getD (off + 6) 0 +
    2 ^ 56 * b.getD (off + 7) 0

/-! ## Pixels and frames (ledbuffer.h) -/

/-- Modelled from the spec: pixeltypes.h is not in the repository
snapshot.  A Pixel (`CRGB`) is "three 8-bit channels (red, green, blue)
in that wire order. No alpha. Fixed 3-byte footprint." -/
structure CRGB where
  r : Nat
  g : Nat
  b : Nat
deriving DecidableEq, Repr

instance : Inhabited CRGB := ⟨⟨0, 0, 0⟩⟩

/-- Wire layout of one pixel: the three channel bytes in order. -/
def CRGB.serialize (c : CRGB) : List Nat := [c.r, c.g, c.b]

/-- Read `count` consecutive (R,G,B) triples from a byte sequence; this
is the `_leds.assign(pData, pData + count)` copy of the `LEDBuffer`
constructor, with `pData` pointing at 3-byte `CRGB` cells. -/
def crgbsFromBytes : Nat → List Nat → List CRGB
  | 0, _ => []
  | n + 1, bytes =>
      ⟨bytes.getD 0 0, bytes.getD 1 0, bytes.getD 2 0⟩ :: crgbsFromBytes n (bytes.drop 3)

/-- Serialize a pixel sequence back to bytes, triple by triple. -/
def serializePixels (leds : List CRGB) : List Nat :=
  leds.flatMap CRGB.serialize

/-- ledbuffer.h: `LEDBuffer`, a frame of LED data with a timestamp.
The two timestamps are `uint64_t` on the wire and in the object. -/
structure LEDBuffer where
  leds : List CRGB
  timeStampSeconds : Nat
  timeStampMicroseconds : Nat
deriving DecidableEq, Repr

instance : Inhabited LEDBuffer := ⟨⟨[], 0, 0⟩⟩

/-- ledbuffer.h: `LEDBuffer::Seconds()`. -/
def LEDBuffer.Seconds (b : LEDBuffer) : Nat := b.timeStampSeconds

/-- ledbuffer.h: `LEDBuffer::MicroSeconds()`. -/
def LEDBuffer.MicroSeconds (b : LEDBuffer) : Nat := b.timeStampMicroseconds

/-- ledbuffer.h: `LEDBuffer::ColorData()`. -/
def LEDBuffer.ColorData (b : LEDBuffer) : List CRGB := b.leds

/-- ledbuffer.h: `LEDBuffer::CreateFromWire`.  Throwing
`LEDBufferException` is modelled as `Except.error` with the thrown
message.  `length32 * sizeof(CRGB) + cbHeader` is `length32 * 3 + 24`;
the multiplication is done in `size_t` and cannot overflow, so plain
`Nat` arithmetic is exact. -/
def LEDBuffer.CreateFromWire (payload : List Nat) : Except String LEDBuffer :=
  if payload.length < 24 then
    .error "Not enough data received to process"
  else
    let length32 := DWORDFromMemory payload 4
    let seconds := ULONGFromMemory payload 8
    let micros := ULONGFromMemory payload 16
    if payload.length < length32 * 3 + 24 then
      .error "Data size mismatch: insufficient data for expected length"
    else
      .ok ⟨crgbsFromBytes length32 (payload.drop 24), seconds, micros⟩

/-! ## The circular buffer manager (ledbuffer.h) -/

/-- apptime.h: `MICROS_PER_SECOND`. -/
def MICROS_PER_SECOND : ℚ := 1000000

/-- Modelled from the spec: values.h is not in the repository snapshot.
`MAXDOUBLE` is the largest finite IEEE double, `DBL_MAX`, whose exact
value is `(2^53 - 1) * 2^971`; the spec asks for "the largest finite
representable double rather than +inf". -/
def MAXDOUBLE : ℚ := (2 ^ 53 - 1) * 2 ^ 971

/-- ledbuffer.h: `LEDBufferManager` state.  `_aptrBuffers` is a vector
of owning pointers; a moved-from or never-filled slot is `none`. -/
structure LEDBufferManager where
  aptrBuffers : List (Option LEDBuffer)
  iHeadIndex : Nat
  iTailIndex : Nat
  cMaxBuffers : Nat
deriving DecidableEq, Repr

namespace LEDBufferManager

/-- ledbuffer.h: the `LEDBufferManager(size_t cBuffers)` constructor:
`cBuffers` default-constructed (null) slots, head and tail at 0. -/
def init (cBuffers : Nat) : LEDBufferManager :=
  ⟨List.replicate cBuffers none, 0, 0, cBuffers⟩

/-- ledbuffer.h: `Capacity()`. -/
def Capacity (m : LEDBufferManager) : Nat := m.cMaxBuffers

/-- ledbuffer.h: `Size()`. -/
def Size (m : LEDBufferManager) : Nat :=
  if m.iHeadIndex < m.iTailIndex then
    m.iHeadIndex + m.cMaxBuffers - m.iTailIndex
  else
    m.iHeadIndex - m.iTailIndex

/-- ledbuffer.h: `IsEmpty()`. -/
def IsEmpty (m : LEDBufferManager) : Bool := m.iHeadIndex = m.iTailIndex

/-- ledbuffer.h: `AgeOfOldestBuffer()`.  `CAppTime::CurrentTime()` is an
external clock reading passed in as `now`; the double arithmetic is
exact rational arithmetic here.  Dereferencing the tail slot when it is
null is undefined in the C++; the model reads a default frame, a case no
reachable state exercises. -/
def AgeOfOldestBuffer (m : LEDBufferManager) (now : ℚ) : ℚ :=
  if ¬ m.IsEmpty then
    let pOldest := (m.aptrBuffers.getD m.iTailIndex none).getD default
    ((pOldest.Seconds : ℚ) + (pOldest.MicroSeconds : ℚ) / MICROS_PER_SECOND) - now
  else
    MAXDOUBLE

/-- ledbuffer.h: `AgeOfNewestBuffer()`. -/
def AgeOfNewestBuffer (m : LEDBufferManager) (now : ℚ) : ℚ :=
  if ¬ m.IsEmpty then
    let newestIndex := if m.iHeadIndex = 0 then m.cMaxBuffers - 1 else m.iHeadIndex - 1
    let pNewest := (m.aptrBuffers.getD newestIndex none).getD default
    ((pNewest.Seconds : ℚ) + (pNewest.MicroSeconds : ℚ) / MICROS_PER_SECOND) - now
  else
    MAXDOUBLE

/-- ledbuffer.h: `PopOldestBuffer()`.  Returns `none` (the
`std::nullopt` sentinel) on an empty buffer and otherwise moves the tail
slot out (leaving a null pointer behind) and advances the tail. -/
def PopOldestBuffer (m : LEDBufferManager) :
    Option (Option LEDBuffer) × LEDBufferManager :=
  if m.IsEmpty then
    (none, m)
  else
    let pResult := m.aptrBuffers.getD m.iTailIndex none
    (some pResult,
      { m with
        aptrBuffers := m.aptrBuffers.set m.iTailIndex none,
        iTailIndex := (m.iTailIndex + 1) % m.cMaxBuffers })

/-- ledbuffer.h: `PushNewBuffer(pBuffer)`.  If the queue is full in the
one-slot-spare sense (`(head + 1) % cMax == tail`) the oldest is dropped
by advancing the tail; the new buffer lands at the head slot. -/
def PushNewBuffer (m : LEDBufferManager) (pBuffer : LEDBuffer) : LEDBufferManager :=
  let tail' :=
    if (m.iHeadIndex + 1) % m.cMaxBuffers = m.iTailIndex then
      (m.iTailIndex + 1) % m.cMaxBuffers
    else
      m.iTailIndex
  { m with
    aptrBuffers := m.aptrBuffers.set m.iHeadIndex (some pBuffer),
    iTailIndex := tail',
    iHeadIndex := (m.iHeadIndex + 1) % m.cMaxBuffers }

/-- Structural well-formedness of a manager state: the slot vector has
the declared length and the indices are in range (as they are for every
state reachable from the constructor). -/
def Wf (m : LEDBufferManager) : Prop :=
  m.aptrBuffers.length = m.cMaxBuffers ∧
    m.iHeadIndex < m.cMaxBuffers ∧ m.iTailIndex < m.cMaxBuffers

instance (m : LEDBufferManager) : Decidable m.Wf := by
  unfold Wf; infer_instance

end LEDBufferManager

/-- Push a whole sequence of frames back-to-back. -/
def pushAll (m : LEDBufferManager) (fs : List LEDBuffer) : LEDBufferManager :=
  fs.foldl LEDBufferManager.PushNewBuffer m

/-- Pop repeatedly (`fuel` times at most), collecting the returned
pointers, stopping at the empty sentinel. -/
def drainAll : Nat → LEDBufferManager → List (Option LEDBuffer)
  | 0, _ => []
  | fuel + 1, m =>
      match m.PopOldestBuffer with
      | (none, _) => []
      | (some x, m') => x :: drainAll fuel m'

/-! ## The socket server (socketserver.h) -/

/-- socketserver.h: `STANDARD_DATA_HEADER_SIZE`. -/
def STANDARD_DATA_HEADER_SIZE : Nat := 24

/-- socketserver.h: `COMPRESSED_HEADER_SIZE`. -/
def COMPRESSED_HEADER_SIZE : Nat := 16

/-- socketserver.h: `LED_DATA_SIZE = sizeof(CRGB)` = 3 bytes. -/
def LED_DATA_SIZE : Nat := 3

/-- socketserver.h: `COMPRESSED_HEADER_TAG (0x44415645)`. -/
def COMPRESSED_HEADER_TAG : Nat := 0x44415645

/-- socketserver.h: `_maximumPacketSize`, fixed at construction to
`STANDARD_DATA_HEADER_SIZE + LED_DATA_SIZE * maxLEDs`; both scratch
buffers are allocated with exactly this many bytes. -/
def maximumPacketSize (maxLEDs : Nat) : Nat :=
  STANDARD_DATA_HEADER_SIZE + LED_DATA_SIZE * maxLEDs

/-- socketserver.h line 335: the first four received bytes recombined as
`_pBuffer[3] << 24 | _pBuffer[2] << 16 | _pBuffer[1] << 8 | _pBuffer[0]`
(a little-endian 32-bit decode done with shifts and ors). -/
def headerWord (b : List Nat) : Nat :=
  b.getD 3 0 <<< 24 ||| b.getD 2 0 <<< 16 ||| b.getD 1 0 <<< 8 ||| b.getD 0 0

/-- socketserver.h lines 338-339: the compressed-header size fields,
recombined byte-wise exactly like `headerWord`. -/
def dwordAt (b : List Nat) (off : Nat) : Nat :=
  b.getD (off + 3) 0 <<< 24 ||| b.getD (off + 2) 0 <<< 16 |||
    b.getD (off + 1) 0 <<< 8 ||| b.getD off 0

/-- socketserver.h line 181: `payloadData[1] << 8 | payloadData[0]`, the
command word as read by `ProcessIncomingData`. -/
def processCommand16 (b : List Nat) : Nat :=
  b.getD 1 0 <<< 8 ||| b.getD 0 0

/-- socketserver.h: `SocketServer::ProcessIncomingData`.  Returns the
`bool` result together with the (possibly unchanged) buffer manager.
A channel word that is nonzero with a clear low bit (`channel16 != 0 &&
(channel16 & 0x01) == 0`) makes it return `false` without pushing;
a parse failure from `CreateFromWire` is caught and returns `false`;
otherwise the parsed buffer is pushed.  A command other than
`WIFI_COMMAND_PIXELDATA64` falls through to `return true`. -/
def processIncomingData (m : LEDBufferManager) (payload : List Nat)
    (payloadLength : Nat) : Bool × LEDBufferManager :=
  let command16 := processCommand16 payload
  if command16 = WIFI_COMMAND_PIXELDATA64 then
    let channel16 := WORDFromMemory payload 2
    if channel16 ≠ 0 ∧ channel16 &&& 0x01 = 0 then
      (false, m)
    else
      match LEDBuffer.CreateFromWire (payload.take payloadLength) with
      | .error _ => (false, m)
      | .ok pBuffer => (true, m.PushNewBuffer pBuffer)
  else
    (true, m)

/-- One result of the `read(2)` call inside `ReadUntilNBytesReceived`:
interrupted by a signal (`EINTR`, retried transparently), some bytes
delivered, or a failure (`read` returned 0 or a negative value with an
errno other than `EINTR`). -/
inductive ReadEvent where
  | intr
  | bytes (b : List Nat)
  | fail
deriving DecidableEq, Repr

/-- Overwrite `buf` starting at `off` with the bytes `b` (the
`memcpy`-like effect of `read` into `_pBuffer + _cbReceived`). -/
def writeAt (buf : List Nat) (off : Nat) (b : List Nat) : List Nat :=
  buf.take off ++ b ++ buf.drop (off + b.length)

/-- The inner accumulation loop of `ReadUntilNBytesReceived`: each
`read` asks for `cbNeeded - _cbReceived` bytes (so a `bytes` event is
truncated to that length), `intr` events are retried, an empty or failed
read returns `false`, and the loop ends with `true` once `_cbReceived`
reaches `cbNeeded`.  Returns `none` only when the event list runs out
with the loop still running. -/
def readLoop : List ReadEvent → List Nat → Nat → Nat →
    Option (Bool × List Nat × Nat)
  | [], _, _, _ => none
  | .intr :: rest, buf, recv, needed => readLoop rest buf recv needed
  | .fail :: _, buf, recv, _ => some (false, buf, recv)
  | .bytes b :: rest, buf, recv, needed =>
      let cbRead := (b.take (needed - recv)).length
      if cbRead = 0 then
        some (false, buf, recv)
      else
        let buf' := writeAt buf recv (b.take (needed - recv))
        if recv + cbRead < needed then
          readLoop rest buf' (recv + cbRead) needed
        else
          some (true, buf', recv + cbRead)

/-- socketserver.h: `SocketServer::ReadUntilNBytesReceived`.  Returns
immediately when enough bytes are buffered, refuses any request larger
than `_maximumPacketSize`, and otherwise runs the accumulation loop. -/
def readUntilNBytesReceived (events : List ReadEvent) (buf : List Nat)
    (recv cbNeeded maxPacket : Nat) : Option (Bool × List Nat × Nat) :=
  if cbNeeded ≤ recv then
    some (true, buf, recv)
  else if maxPacket < cbNeeded then
    some (false, buf, recv)
  else
    readLoop events buf recv cbNeeded

/-- socketserver.h: `SocketServer::DecompressBuffer`, with the zlib
stream machine abstracted into `inflate`: `inflate src = some out` means
the inflate loop reaches `Z_STREAM_END` having written `out`, and `none`
means it fails with a stream/data/memory error.  The wrapper then
demands `total_out == expectedOutputSize` and fails otherwise. -/
def decompressBuffer (inflate : List Nat → Option (List Nat))
    (src : List Nat) (expectedOutputSize : Nat) : Option (List Nat) :=
  match inflate src with
  | none => none
  | some out => if out.length = expectedOutputSize then some out else none

/-- How one iteration of the per-connection `do { ... } while(true)`
body of `ProcessIncomingConnectionsLoop` ends.  Every `abort*`
constructor is one of the `break` sites (each with its own log line);
a `break` leaves the loop, closes the socket and resets the read buffer.
`respond` is the success path: the read buffer is consumed and a
`SocketResponse` status packet is written back, and the loop continues
on the same connection. -/
inductive ConnOutcome where
  | respond
  | abortHeaderRead
  | abortExpandedTooBig
  | abortCompressedRead
  | abortDecompress
  | abortProcessCompressed
  | abortTooManyBytes
  | abortPixelRead
  | abortProcessStandard
  | abortUnknownCommand
deriving DecidableEq, Repr

/-- The compressed branch of the per-connection loop (socketserver.h
lines 336-372): decode the 16-byte compressed header, bounds-check the
expanded size, read the body, inflate it into `_abOutputBuffer` and
process the expanded payload.  `stream` is the byte sequence the peer
sends on this connection; a read of `n` bytes succeeds exactly when the
stream holds `n` bytes (`ReadUntilNBytesReceived` additionally fails on
any request beyond `_maximumPacketSize`). -/
def compressedStep (inflate : List Nat → Option (List Nat)) (maxPacket : Nat)
    (stream : List Nat) (m : LEDBufferManager) : ConnOutcome × LEDBufferManager :=
  let compressedSize := dwordAt stream 4
  let expandedSize := dwordAt stream 8
  if maxPacket < expandedSize then
    (.abortExpandedTooBig, m)
  else if ¬ (COMPRESSED_HEADER_SIZE + compressedSize ≤ STANDARD_DATA_HEADER_SIZE ∨
      (COMPRESSED_HEADER_SIZE + compressedSize ≤ maxPacket ∧
        COMPRESSED_HEADER_SIZE + compressedSize ≤ stream.length)) then
    (.abortCompressedRead, m)
  else
    let pSourceBuffer := (stream.drop COMPRESSED_HEADER_SIZE).take compressedSize
    match decompressBuffer inflate pSourceBuffer expandedSize with
    | none => (.abortDecompress, m)
    | some out =>
        match processIncomingData m out expandedSize with
        | (false, m') => (.abortProcessCompressed, m')
        | (true, m') => (.respond, m')

/-- The standard (uncompressed) branch of the per-connection loop
(socketserver.h lines 374-419): check the command word, bounds-check the
promised total size, read the rest of the packet and process it. -/
def standardStep (maxPacket : Nat) (stream : List Nat)
    (m : LEDBufferManager) : ConnOutcome × LEDBufferManager :=
  let command16 := WORDFromMemory stream 0
  if command16 = WIFI_COMMAND_PIXELDATA64 then
    let length32 := DWORDFromMemory stream 4
    let totalExpected := STANDARD_DATA_HEADER_SIZE + length32 * LED_DATA_SIZE
    if maxPacket < totalExpected then
      (.abortTooManyBytes, m)
    else if stream.length < totalExpected then
      (.abortPixelRead, m)
    else
      match processIncomingData m (stream.take totalExpected) totalExpected with
      | (false, m') => (.abortProcessStandard, m')
      | (true, m') => (.respond, m')
  else
    (.abortUnknownCommand, m)

/-- One iteration of the per-connection read loop of
`ProcessIncomingConnectionsLoop` (socketserver.h lines 322-448): read
the 24-byte standard header, dispatch on the recombined first word
against `COMPRESSED_HEADER_TAG`, and run the matching branch. -/
def connStep (inflate : List Nat → Option (List Nat)) (maxPacket : Nat)
    (stream : List Nat) (m : LEDBufferManager) : ConnOutcome × LEDBufferManager :=
  if stream.length < STANDARD_DATA_HEADER_SIZE then
    (.abortHeaderRead, m)
  else if headerWord stream = COMPRESSED_HEADER_TAG then
    compressedStep inflate maxPacket stream m
  else
    standardStep maxPacket stream m

/-! ## Drawing and pacing (matrixdraw.h) -/

/-- The external `rgb_matrix::RGBMatrix` is used by `MatrixDraw` only
through `width()`, `height()` and `SetPixel`; the model keeps its
geometry and records the `SetPixel` calls. -/
structure RGBMatrixGeom where
  width : Nat
  height : Nat
deriving DecidableEq, Repr

/-- matrixdraw.h: `MatrixDraw::DrawFrame`, without the FPS bookkeeping.
The only size guard in the source is `ColorData().size() > numpixels`,
thrown as `std::runtime_error`; otherwise every matrix pixel index is
filled from `ColorData()[idx]` with the x coordinate flipped.  For a
frame shorter than the matrix the C++ indexes the pixel vector out of
bounds (undefined behaviour); the model reads a default pixel there. -/
def DrawFrame (buffer : LEDBuffer) (matrix : RGBMatrixGeom) :
    Except String (List (Nat × Nat × CRGB)) :=
  let numpixels := matrix.width * matrix.height
  if buffer.ColorData.length > numpixels then
    .error "More data received than matrix can accomodate"
  else
    .ok ((List.range numpixels).map fun idx =>
      let x := idx % matrix.width
      let y := idx / matrix.width
      let color := buffer.ColorData.getD idx default
      (matrix.width - 1 - x, y, color))

/-- Truncation of a rational toward zero: the effect of the C++
`(int64_t)` cast applied to a double in `RunDrawLoop` (`Int.div` is
truncated division). -/
def truncQ (q : ℚ) : ℤ := Int.tdiv q.num q.den

/-- matrixdraw.h: `kMaximumWait = 40000.0` microseconds. -/
def kMaximumWait : ℚ := 40000

/-- The inner `while (AgeOfOldestBuffer() <= 0)` drain loop of
`RunDrawLoop` with `burnExtraFrames = false`: pop and draw every due
frame; a valueless pop just re-checks the condition.  `fuel` bounds the
recursion; `RunDrawLoop` is driven with `fuel = Size`, which the drain
lemmas show is enough. -/
def drainDue (now : ℚ) : Nat → LEDBufferManager →
    List (Option LEDBuffer) × LEDBufferManager
  | 0, m => ([], m)
  | fuel + 1, m =>
      if m.AgeOfOldestBuffer now ≤ 0 then
        match m.PopOldestBuffer with
        | (none, m') => drainDue now fuel m'
        | (some b, m') =>
            let (rest, m'') := drainDue now fuel m'
            (b :: rest, m'')
      else
        ([], m)

/-- One iteration of the outer `while (!interrupt_received)` loop of
`MatrixDraw::RunDrawLoop` at clock reading `now`: drain the due frames,
then compute `delay = min(kMaximumWait, AgeOfOldestBuffer() *
MICROS_PER_SECOND)` as an `int64_t` and sleep exactly when it is
positive.  Returns the frames drawn, the new state, the delay and the
sleep decision. -/
def runDrawLoopIteration (now : ℚ) (m : LEDBufferManager) :
    List (Option LEDBuffer) × LEDBufferManager × ℤ × Bool :=
  let r := drainDue now m.Size m
  let delay := min (truncQ kMaximumWait)
    (truncQ (r.2.AgeOfOldestBuffer now * MICROS_PER_SECOND))
  (r.1, r.2, delay, delay > 0)

/-- Little-endian encoding of a 32-bit value, used to build concrete
wire packets in the statements below. -/
def le32 (n : Nat) : List Nat :=
  [n % 256, n / 2 ^ 8 % 256, n / 2 ^ 16 % 256, n / 2 ^ 24 % 256]

/-- A compressed-variant packet as the producer must frame it for this
receiver: the four tag bytes whose little-endian recombination is
`COMPRESSED_HEADER_TAG`, the three little-endian size fields and the
deflated body. -/
def compressedPacket (compressedSize expandedSize reserved : Nat)
    (body : List Nat) : List Nat :=
  [0x45, 0x56, 0x41, 0x44] ++ le32 compressedSize ++ le32 expandedSize ++
    le32 reserved ++ body

/-! ## General lemmas -/

lemma shiftLeft_lor_byte (a b n : Nat) (hb : b < 2 ^ n) :
    a <<< n ||| b = 2 ^ n * a + b := by
  rw [Nat.shiftLeft_eq, Nat.mul_comm a (2 ^ n), ← Nat.mul_add_lt_is_or hb]

/-- Recombining four bytes with shifts and ors gives the little-endian
32-bit value. -/
lemma le32_recombine (b0 b1 b2 b3 : Nat) (h0 : b0 < 256) (h1 : b1 < 256)
    (h2 : b2 < 256) :
    b3 <<< 24 ||| b2 <<< 16 ||| b1 <<< 8 ||| b0
      = b0 + 2 ^ 8 * b1 + 2 ^ 16 * b2 + 2 ^ 24 * b3 := by
  have e1 : b3 <<< 24 ||| b2 <<< 16 = 2 ^ 16 * (2 ^ 8 * b3 + b2) := by
    rw [Nat.shiftLeft_eq b2 16, shiftLeft_lor_byte _ _ _ (by
      have : b2 * 2 ^ 16 < 256 * 2 ^ 16 := (Nat.mul_lt_mul_right (by norm_num)).mpr h2
      calc b2 * 2 ^ 16 < 256 * 2 ^ 16 := this
        _ = 2 ^ 24 := by norm_num)]
    ring
  have e2 : b3 <<< 24 ||| b2 <<< 16 ||| b1 <<< 8
      = 2 ^ 8 * (2 ^ 8 * (2 ^ 8 * b3 + b2) + b1) := by
    rw [e1, Nat.shiftLeft_eq b1 8]
    rw [show (2:Nat) ^ 16 * (2 ^ 8 * b3 + b2) = 2 ^ 24 * b3 + 2 ^ 16 * b2 by ring]
    rw [show (2:Nat) ^ 24 * b3 + 2 ^ 16 * b2 = 2 ^ 16 * (2 ^ 8 * b3 + b2) by ring]
    rw [← Nat.mul_add_lt_is_or (show b1 * 2 ^ 8 < 2 ^ 16 by
      have : b1 * 2 ^ 8 < 256 * 2 ^ 8 := (Nat.mul_lt_mul_right (by norm_num)).mpr h1
      calc b1 * 2 ^ 8 < 256 * 2 ^ 8 := this
        _ = 2 ^ 16 := by norm_num)]
    ring
  rw [e2, ← Nat.mul_add_lt_is_or h0]
  ring

/-- Recombining two bytes with a shift and an or gives the little-endian
16-bit value. -/
lemma le16_recombine (b0 b1 : Nat) (h0 : b0 < 256) :
    b1 <<< 8 ||| b0 = b0 + 2 ^ 8 * b1 := by
  rw [shiftLeft_lor_byte _ _ _ (show b0 < 2 ^ 8 from h0)]
  ring

lemma getD_lt_of_bytes {l : List Nat} (h : ∀ x ∈ l, x < 256) (i : Nat) :
    l.getD i 0 < 256 := by
  rcases Nat.lt_or_ge i l.length with hi | hi
  · rw [List.getD_eq_getElem l 0 hi]
    exact h _ (List.getElem_mem hi)
  · rw [List.getD_eq_default l 0 hi]
    norm_num

/-- Under byte-valued input, the shift-and-or header decode of
socketserver.h agrees with the memory load of globals.h. -/
lemma headerWord_eq_DWORD {l : List Nat} (h : ∀ x ∈ l, x < 256) :
    headerWord l = DWORDFromMemory l 0 := by
  unfold headerWord DWORDFromMemory
  rw [le32_recombine _ _ _ _ (getD_lt_of_bytes h 0) (getD_lt_of_bytes h 1)
    (getD_lt_of_bytes h 2)]

/-- Under byte-valued input, `dwordAt` agrees with `DWORDFromMemory`. -/
lemma dwordAt_eq_DWORD {l : List Nat} (h : ∀ x ∈ l, x < 256) (off : Nat) :
    dwordAt l off = DWORDFromMemory l off := by
  unfold dwordAt DWORDFromMemory
  rw [le32_recombine _ _ _ _ (getD_lt_of_bytes h off) (getD_lt_of_bytes h (off + 1))
    (getD_lt_of_bytes h (off + 2))]

/-- Under byte-valued input, the command word read by
`ProcessIncomingData` agrees with `WORDFromMemory`. -/
lemma processCommand16_eq_WORD {l : List Nat} (h : ∀ x ∈ l, x < 256) :
    processCommand16 l = WORDFromMemory l 0 := by
  unfold processCommand16 WORDFromMemory
  rw [le16_recombine _ _ (getD_lt_of_bytes h 0)]

lemma getD_take_of_lt (l : List Nat) (n i : Nat) (h : i < n) :
    (l.take n).getD i 0 = l.getD i 0 := by
  rcases Nat.lt_or_ge i l.length with hi | hi
  · have hlen : i < (l.take n).length := by
      simp [List.length_take]; omega
    rw [List.getD_eq_getElem _ 0 hlen, List.getD_eq_getElem l 0 hi]
    simp [List.getElem_take]
  · have hlen : (l.take n).length ≤ i := by
      simp [List.length_take]; omega
    rw [List.getD_eq_default _ 0 hlen, List.getD_eq_default l 0 hi]

lemma crgbsFromBytes_length (n : Nat) (bs : List Nat) :
    (crgbsFromBytes n bs).length = n := by
  induction n generalizing bs with
  | zero => simp [crgbsFromBytes]
  | succ k ih => simp [crgbsFromBytes, ih]

/-- Reading `n` pixel triples and serializing them back reproduces the
first `3 * n` bytes, provided they were all present. -/
lemma serialize_crgbsFromBytes (n : Nat) (bs : List Nat)
    (h : 3 * n ≤ bs.length) :
    serializePixels (crgbsFromBytes n bs) = bs.take (3 * n) := by
  induction n generalizing bs with
  | zero => simp [crgbsFromBytes, serializePixels]
  | succ k ih =>
      match bs with
      | [] => simp at h
      | [a] => simp at h; omega
      | [a, b] => simp at h; omega
      | a :: b :: c :: rest =>
          have hrest : 3 * k ≤ rest.length := by
            simp at h; omega
          have hdrop : (a :: b :: c :: rest).drop 3 = rest := rfl
          rw [crgbsFromBytes]
          simp only [serializePixels, List.flatMap_cons, hdrop]
          have := ih rest hrest
          simp only [serializePixels] at this
          simp [CRGB.serialize, this]
          rw [show 3 * (k + 1) = 3 * k + 1 + 1 + 1 by omega]
          simp [List.take_succ_cons]

/-! ## Claim C5: wire parse round-trip -/

/-- C5: for a byte sequence `B` whose PIXELDATA64 header declares
`pixel_count = N` (the little-endian dword at offset 4),
`CreateFromWire` raises a parse error iff `|B| < 24` or
`|B| < 24 + 3N`; otherwise the returned frame carries the header's
seconds and micros timestamps and its pixel sequence, re-serialized as
(R,G,B) triples, reproduces `B[24 : 24 + 3N]` exactly. -/
theorem createFromWire_roundtrip (B : List Nat) :
    ((LEDBuffer.CreateFromWire B).isOk = false ↔
      B.length < 24 ∨ B.length < 24 + 3 * DWORDFromMemory B 4) ∧
    (∀ f, LEDBuffer.CreateFromWire B = .ok f →
      f.Seconds = ULONGFromMemory B 8 ∧
      f.MicroSeconds = ULONGFromMemory B 16 ∧
      f.leds.length = DWORDFromMemory B 4 ∧
      serializePixels f.leds = (B.drop 24).take (3 * DWORDFromMemory B 4)) := by
  have hunf : LEDBuffer.CreateFromWire B =
      if B.length < 24 then .error "Not enough data received to process"
      else if B.length < DWORDFromMemory B 4 * 3 + 24 then
        .error "Data size mismatch: insufficient data for expected length"
      else
        .ok ⟨crgbsFromBytes (DWORDFromMemory B 4) (B.drop 24),
          ULONGFromMemory B 8, ULONGFromMemory B 16⟩ := by
    unfold LEDBuffer.CreateFromWire
    rfl
  constructor
  · rw [hunf]
    split_ifs with h1 h2 <;> simp [Except.isOk, Except.toBool] <;> omega
  · intro f hf
    rw [hunf] at hf
    split_ifs at hf with h1 h2
    injection hf with h
    subst h
    refine ⟨rfl, rfl, crgbsFromBytes_length _ _, ?_⟩
    have hlen : 3 * DWORDFromMemory B 4 ≤ (B.drop 24).length := by
      simp [List.length_drop]; omega
    exact serialize_crgbsFromBytes _ _ hlen

/-- C5 witness: a concrete 30-byte packet with two pixels parses into
the declared timestamps and round-trips its pixel bytes. -/
theorem createFromWire_roundtrip_witness :
    LEDBuffer.CreateFromWire
        ([3, 0, 0, 0, 2, 0, 0, 0, 5, 0, 0, 0, 0, 0, 0, 0, 7, 0, 0, 0, 0, 0, 0, 0,
          10, 20, 30, 40, 50, 60])
      = .ok ⟨[⟨10, 20, 30⟩, ⟨40, 50, 60⟩], 5, 7⟩ ∧
    serializePixels ([⟨10, 20, 30⟩, ⟨40, 50, 60⟩] : List CRGB)
      = [10, 20, 30, 40, 50, 60] := by
  refine ⟨rfl, ?_⟩
  have h := (createFromWire_roundtrip
    ([3, 0, 0, 0, 2, 0, 0, 0, 5, 0, 0, 0, 0, 0, 0, 0, 7, 0, 0, 0, 0, 0, 0, 0,
      10, 20, 30, 40, 50, 60])).2
    ⟨[⟨10, 20, 30⟩, ⟨40, 50, 60⟩], 5, 7⟩ rfl
  have := h.2.2.2
  simpa using this

/-! ## Claim C4: draw-time size check -/

/-- C4: the source checks only `ColorData().size() > numpixels`.  On a
2 by 2 matrix an EMPTY frame (0 pixels, differing from the 4 matrix
pixels) is not rejected: `DrawFrame` reports success instead of raising
the size-mismatch error the claim requires, and the C++ loop body reads
`ColorData()[idx]` past the end of the pixel vector.  An oversized frame
(5 pixels) is rejected before any pixel is written. -/
theorem drawFrame_size_check_one_sided :
    (DrawFrame ⟨[], 0, 0⟩ ⟨2, 2⟩).isOk = true ∧
    (DrawFrame ⟨List.replicate 5 default, 0, 0⟩ ⟨2, 2⟩).isOk = false := by
  decide

/-! ## Claim C3: the compressed-variant tag -/

/-- C3 counterexample: a packet whose first four bytes are 0x44 0x41
0x56 0x45 (ASCII "DAVE") recombines little-endian to 0x45564144, which
is NOT `COMPRESSED_HEADER_TAG` (0x44415645); the read loop treats it as
an unknown command (its leading word is 0x4144) and aborts the
connection instead of taking the compressed branch. -/
theorem compressedTag_counterexample :
    headerWord ([0x44, 0x41, 0x56, 0x45] ++ List.replicate 20 0)
        ≠ COMPRESSED_HEADER_TAG ∧
    connStep (fun _ => none) 1000 ([0x44, 0x41, 0x56, 0x45] ++ List.replicate 20 0)
        (LEDBufferManager.init 3)
      = (ConnOutcome.abortUnknownCommand, LEDBufferManager.init 3) := by
  decide

/-- C3 amended: the per-connection loop takes the compressed-variant
branch exactly when the packet's first four bytes are 0x45 0x56 0x41
0x44 (ASCII "EVAD"), i.e. when their little-endian recombination equals
`COMPRESSED_HEADER_TAG = 0x44415645`. -/
theorem compressedTag_matches_evad
    (inflate : List Nat → Option (List Nat)) (maxPacket : Nat)
    (m : LEDBufferManager) (b0 b1 b2 b3 : Nat) (rest : List Nat)
    (h0 : b0 < 256) (h1 : b1 < 256) (h2 : b2 < 256) (h3 : b3 < 256)
    (hlen : STANDARD_DATA_HEADER_SIZE ≤ (b0 :: b1 :: b2 :: b3 :: rest).length) :
    (headerWord (b0 :: b1 :: b2 :: b3 :: rest) = COMPRESSED_HEADER_TAG ↔
      b0 = 0x45 ∧ b1 = 0x56 ∧ b2 = 0x41 ∧ b3 = 0x44) ∧
    (headerWord (b0 :: b1 :: b2 :: b3 :: rest) = COMPRESSED_HEADER_TAG →
      connStep inflate maxPacket (b0 :: b1 :: b2 :: b3 :: rest) m
        = compressedStep inflate maxPacket (b0 :: b1 :: b2 :: b3 :: rest) m) := by
  have hw : headerWord (b0 :: b1 :: b2 :: b3 :: rest)
      = b0 + 2 ^ 8 * b1 + 2 ^ 16 * b2 + 2 ^ 24 * b3 := by
    unfold headerWord
    simp only [List.getD_cons_zero, List.getD_cons_succ]
    exact le32_recombine _ _ _ _ h0 h1 h2
  norm_num at hw
  constructor
  · rw [hw]
    unfold COMPRESSED_HEADER_TAG
    constructor
    · intro he
      refine ⟨?_, ?_, ?_, ?_⟩ <;> omega
    · rintro ⟨rfl, rfl, rfl, rfl⟩
      norm_num
  · intro ht
    unfold connStep
    rw [if_neg (Nat.not_lt.mpr hlen), if_pos ht]

/-- C3 amended witness: the EVAD-tagged 24-byte packet takes the
compressed branch. -/
theorem compressedTag_matches_evad_witness :
    headerWord (0x45 :: 0x56 :: 0x41 :: 0x44 :: List.replicate 20 0)
        = COMPRESSED_HEADER_TAG ∧
    connStep (fun _ => none) 1000
        (0x45 :: 0x56 :: 0x41 :: 0x44 :: List.replicate 20 0)
        (LEDBufferManager.init 3)
      = compressedStep (fun _ => none) 1000
        (0x45 :: 0x56 :: 0x41 :: 0x44 :: List.replicate 20 0)
        (LEDBufferManager.init 3) := by
  have h := compressedTag_matches_evad (fun _ => none) 1000 (LEDBufferManager.init 3)
    0x45 0x56 0x41 0x44 (List.replicate 20 0) (by norm_num) (by norm_num)
    (by norm_num) (by norm_num) (by simp [STANDARD_DATA_HEADER_SIZE])
  have ht := h.1.mpr ⟨rfl, rfl, rfl, rfl⟩
  exact ⟨ht, h.2 ht⟩

/-! ## Claim C2: the channel filter -/

/-- C2 counterexample: a well-formed PIXELDATA64 packet with channel
word 2 (nonzero, low bit clear) does NOT leave the connection open: the
channel-mismatch `return false` of `ProcessIncomingData` is treated by
the read loop as a processing error, which is a `break` that closes the
connection, not the `respond` continuation. -/
theorem channelMismatch_counterexample :
    (connStep (fun _ => none) 1000
        [3, 0, 2, 0, 0, 0, 0, 0, 0, 0, 0, 0, 0, 0, 0, 0, 0, 0, 0, 0, 0, 0, 0, 0]
        (LEDBufferManager.init 3)).1
      ≠ ConnOutcome.respond ∧
    connStep (fun _ => none) 1000
        [3, 0, 2, 0, 0, 0, 0, 0, 0, 0, 0, 0, 0, 0, 0, 0, 0, 0, 0, 0, 0, 0, 0, 0]
        (LEDBufferManager.init 3)
      = (ConnOutcome.abortProcessStandard, LEDBufferManager.init 3) := by
  decide

lemma processCommand16_take (s : List Nat) (n : Nat) (h : 2 ≤ n) :
    processCommand16 (s.take n) = processCommand16 s := by
  unfold processCommand16
  rw [getD_take_of_lt s n 0 (by omega), getD_take_of_lt s n 1 (by omega)]

lemma WORDFromMemory_take (s : List Nat) (n off : Nat) (h : off + 2 ≤ n) :
    WORDFromMemory (s.take n) off = WORDFromMemory s off := by
  unfold WORDFromMemory
  rw [getD_take_of_lt s n off (by omega), getD_take_of_lt s n (off + 1) (by omega)]

/-- A packet whose leading word is the PIXELDATA64 command cannot carry
the compressed tag: its recombined first dword is 3 modulo 256, the
tag is 0x45 modulo 256. -/
lemma headerWord_ne_tag_of_pixeldata {s : List Nat} (hbytes : ∀ x ∈ s, x < 256)
    (hcmd : WORDFromMemory s 0 = WIFI_COMMAND_PIXELDATA64) :
    headerWord s ≠ COMPRESSED_HEADER_TAG := by
  have hw := headerWord_eq_DWORD hbytes
  have h0 := getD_lt_of_bytes hbytes 0
  have h1 := getD_lt_of_bytes hbytes 1
  have h2 := getD_lt_of_bytes hbytes 2
  have h3 := getD_lt_of_bytes hbytes 3
  unfold WORDFromMemory WIFI_COMMAND_PIXELDATA64 at hcmd
  unfold DWORDFromMemory at hw
  unfold COMPRESSED_HEADER_TAG
  rw [hw]
  norm_num at hcmd ⊢
  omega

/-- C2 amended: a well-formed PIXELDATA64 packet whose channel word is
nonzero with a clear low bit is dropped without a frame being pushed
(the manager is unchanged), but `ProcessIncomingData` reports `false`
and the per-connection loop therefore ABORTS the connection (the
processing-error `break` closes the socket) instead of keeping it
open. -/
theorem channelMismatch_drops_and_aborts
    (inflate : List Nat → Option (List Nat)) (maxPacket : Nat)
    (m : LEDBufferManager) (s : List Nat)
    (hbytes : ∀ x ∈ s, x < 256)
    (hlen : STANDARD_DATA_HEADER_SIZE ≤ s.length)
    (hcmd : WORDFromMemory s 0 = WIFI_COMMAND_PIXELDATA64)
    (hch0 : WORDFromMemory s 2 ≠ 0)
    (hch1 : WORDFromMemory s 2 &&& 0x01 = 0)
    (hmax : STANDARD_DATA_HEADER_SIZE + DWORDFromMemory s 4 * LED_DATA_SIZE ≤ maxPacket)
    (havail : STANDARD_DATA_HEADER_SIZE + DWORDFromMemory s 4 * LED_DATA_SIZE ≤ s.length) :
    processIncomingData m
        (s.take (STANDARD_DATA_HEADER_SIZE + DWORDFromMemory s 4 * LED_DATA_SIZE))
        (STANDARD_DATA_HEADER_SIZE + DWORDFromMemory s 4 * LED_DATA_SIZE)
      = (false, m) ∧
    connStep inflate maxPacket s m = (ConnOutcome.abortProcessStandard, m) := by
  have htot : 2 ≤ STANDARD_DATA_HEADER_SIZE + DWORDFromMemory s 4 * LED_DATA_SIZE := by
    unfold STANDARD_DATA_HEADER_SIZE
    omega
  have hproc : processIncomingData m
      (s.take (STANDARD_DATA_HEADER_SIZE + DWORDFromMemory s 4 * LED_DATA_SIZE))
      (STANDARD_DATA_HEADER_SIZE + DWORDFromMemory s 4 * LED_DATA_SIZE)
    = (false, m) := by
    unfold processIncomingData
    rw [processCommand16_take _ _ htot,
      processCommand16_eq_WORD hbytes, hcmd, if_pos rfl,
      WORDFromMemory_take _ _ 2 (by unfold STANDARD_DATA_HEADER_SIZE at *; omega),
      if_pos ⟨hch0, hch1⟩]
  refine ⟨hproc, ?_⟩
  unfold connStep
  rw [if_neg (Nat.not_lt.mpr hlen),
    if_neg (headerWord_ne_tag_of_pixeldata hbytes hcmd)]
  unfold standardStep
  rw [hcmd, if_pos rfl, if_neg (Nat.not_lt.mpr hmax), if_neg (Nat.not_lt.mpr havail),
    hproc]

/-- C2 amended witness: the channel-2 packet is dropped (no push) and
the connection is aborted. -/
theorem channelMismatch_drops_and_aborts_witness :
    processIncomingData (LEDBufferManager.init 3)
        ([3, 0, 2, 0, 0, 0, 0, 0, 0, 0, 0, 0, 0, 0, 0, 0, 0, 0, 0, 0, 0, 0, 0, 0].take 24)
        24
      = (false, LEDBufferManager.init 3) ∧
    connStep (fun _ => none) 1000
        [3, 0, 2, 0, 0, 0, 0, 0, 0, 0, 0, 0, 0, 0, 0, 0, 0, 0, 0, 0, 0, 0, 0, 0]
        (LEDBufferManager.init 3)
      = (ConnOutcome.abortProcessStandard, LEDBufferManager.init 3) := by
  have h := channelMismatch_drops_and_aborts (fun _ => none) 1000
    (LEDBufferManager.init 3)
    [3, 0, 2, 0, 0, 0, 0, 0, 0, 0, 0, 0, 0, 0, 0, 0, 0, 0, 0, 0, 0, 0, 0, 0]
    (by decide) (by decide) (by decide) (by decide) (by decide) (by decide) (by decide)
  exact ⟨h.1, h.2⟩

/-! ## Claim C10: compressed payloads with a non-pixel command -/

lemma le32_digits (x : Nat) (hx : x < 2 ^ 32) :
    x % 256 + 2 ^ 8 * (x / 2 ^ 8 % 256) + 2 ^ 16 * (x / 2 ^ 16 % 256) +
      2 ^ 24 * (x / 2 ^ 24 % 256) = x := by
  norm_num
  omega

/-- Field decode of a well-formed compressed packet: the tag matches and
the two size dwords recombine to their encoded values. -/
lemma compressedPacket_fields (D E R : Nat) (body : List Nat)
    (hD : D < 2 ^ 32) (hE : E < 2 ^ 32) :
    headerWord (compressedPacket D E R body) = COMPRESSED_HEADER_TAG ∧
    dwordAt (compressedPacket D E R body) 4 = D ∧
    dwordAt (compressedPacket D E R body) 8 = E ∧
    (compressedPacket D E R body).drop COMPRESSED_HEADER_SIZE = body ∧
    (compressedPacket D E R body).length = COMPRESSED_HEADER_SIZE + body.length := by
  refine ⟨?_, ?_, ?_, ?_, ?_⟩
  · simp only [compressedPacket, le32, List.cons_append, List.nil_append, headerWord,
      List.getD_cons_zero, List.getD_cons_succ]
    decide
  · simp only [compressedPacket, le32, List.cons_append, List.nil_append, dwordAt,
      List.getD_cons_zero, List.getD_cons_succ]
    rw [le32_recombine _ _ _ _ (Nat.mod_lt _ (by norm_num)) (Nat.mod_lt _ (by norm_num))
      (Nat.mod_lt _ (by norm_num))]
    exact le32_digits D hD
  · simp only [compressedPacket, le32, List.cons_append, List.nil_append, dwordAt,
      List.getD_cons_zero, List.getD_cons_succ]
    rw [le32_recombine _ _ _ _ (Nat.mod_lt _ (by norm_num)) (Nat.mod_lt _ (by norm_num))
      (Nat.mod_lt _ (by norm_num))]
    exact le32_digits E hE
  · simp [compressedPacket, le32, COMPRESSED_HEADER_SIZE]
  · simp [compressedPacket, le32, COMPRESSED_HEADER_SIZE]
    omega

/-- C10: a compressed packet whose successfully decompressed payload
does not begin with command code 3 is processed as a success:
`ProcessIncomingData` falls through to `return true` without pushing
a frame, the read buffer is consumed and a status response is sent on
the still-open connection.  The same payload sent UNCOMPRESSED (any
packet whose leading word is neither the tag nor command 3) instead hits
the unknown-command abort. -/
theorem compressedNonPixel_respond
    (inflate : List Nat → Option (List Nat)) (maxPacket : Nat)
    (m : LEDBufferManager) (body p : List Nat) (R : Nat)
    (hinf : inflate body = some p)
    (hcmd : processCommand16 p ≠ WIFI_COMMAND_PIXELDATA64)
    (hblen : 8 ≤ body.length)
    (hD : body.length < 2 ^ 32) (hE : p.length < 2 ^ 32)
    (hmaxE : p.length ≤ maxPacket)
    (hmaxD : COMPRESSED_HEADER_SIZE + body.length ≤ maxPacket) :
    processIncomingData m p p.length = (true, m) ∧
    connStep inflate maxPacket (compressedPacket body.length p.length R body) m
      = (ConnOutcome.respond, m) ∧
    (∀ s : List Nat, STANDARD_DATA_HEADER_SIZE ≤ s.length →
      headerWord s ≠ COMPRESSED_HEADER_TAG →
      WORDFromMemory s 0 ≠ WIFI_COMMAND_PIXELDATA64 →
      connStep inflate maxPacket s m = (ConnOutcome.abortUnknownCommand, m)) := by
  have hproc : processIncomingData m p p.length = (true, m) := by
    unfold processIncomingData
    rw [if_neg hcmd]
  obtain ⟨htag, hd4, hd8, hdrop, hlen⟩ :=
    compressedPacket_fields body.length p.length R body hD hE
  refine ⟨hproc, ?_, ?_⟩
  · unfold connStep
    rw [if_neg (by
      rw [hlen]
      unfold STANDARD_DATA_HEADER_SIZE COMPRESSED_HEADER_SIZE at *
      omega), if_pos htag]
    unfold compressedStep
    rw [hd4, hd8, if_neg (Nat.not_lt.mpr hmaxE),
      if_neg (by
        rw [hlen]
        push_neg
        right
        exact ⟨hmaxD, le_refl _⟩), hdrop]
    unfold decompressBuffer
    rw [List.take_length]
    simp [hinf, hproc]
  · intro s hs htg hcm
    unfold connStep
    rw [if_neg (Nat.not_lt.mpr hs), if_neg htg]
    unfold standardStep
    rw [if_neg hcm]

/-- C10 witness: a compressed packet inflating to a command-4 payload
is answered with a response on the open connection, while the same
payload sent uncompressed aborts as an unknown command. -/
theorem compressedNonPixel_respond_witness :
    processIncomingData (LEDBufferManager.init 2)
        ([4, 0] ++ List.replicate 22 0) 24 = (true, LEDBufferManager.init 2) ∧
    connStep
        (fun s => if s = [1, 1, 1, 1, 1, 1, 1, 1] then
          some ([4, 0] ++ List.replicate 22 0) else none)
        1000
        (compressedPacket 8 24 0 [1, 1, 1, 1, 1, 1, 1, 1])
        (LEDBufferManager.init 2)
      = (ConnOutcome.respond, LEDBufferManager.init 2) := by
  have h := compressedNonPixel_respond
    (fun s => if s = [1, 1, 1, 1, 1, 1, 1, 1] then
      some ([4, 0] ++ List.replicate 22 0) else none)
    1000 (LEDBufferManager.init 2) [1, 1, 1, 1, 1, 1, 1, 1]
    ([4, 0] ++ List.replicate 22 0) 0
    (by decide) (by decide) (by decide) (by decide) (by decide) (by decide) (by decide)
  exact ⟨h.1, h.2.1⟩

/-! ## Claim C9: compressed path round-trip -/

/-- C9: sending the compressed variant of a standard PIXELDATA64 packet
`P` (the tag header with `compressed_size = |body|`, `expanded_size =
|P|`, followed by the deflated body) drives the buffer manager through
exactly the same `ProcessIncomingData` call as sending `P` uncompressed,
provided inflation succeeds with `total_out` equal to the declared
expanded size: both paths yield the same manager state, and the
compressed path responds exactly when the uncompressed one does.  When
`total_out` differs from the declared expanded size, the connection is
aborted with no frame pushed. -/
theorem compressed_roundtrip_equiv
    (inflate : List Nat → Option (List Nat)) (maxPacket : Nat)
    (m : LEDBufferManager) (P body : List Nat) (R : Nat)
    (hbytes : ∀ x ∈ P, x < 256)
    (hcmd : WORDFromMemory P 0 = WIFI_COMMAND_PIXELDATA64)
    (hstd : P.length = STANDARD_DATA_HEADER_SIZE + DWORDFromMemory P 4 * LED_DATA_SIZE)
    (hblen : 8 ≤ body.length)
    (hD : body.length < 2 ^ 32) (hE : P.length < 2 ^ 32)
    (hmaxP : P.length ≤ maxPacket)
    (hmaxB : COMPRESSED_HEADER_SIZE + body.length ≤ maxPacket) :
    (inflate body = some P →
      connStep inflate maxPacket (compressedPacket body.length P.length R body) m
        = (if (processIncomingData m P P.length).1 then ConnOutcome.respond
            else ConnOutcome.abortProcessCompressed,
          (processIncomingData m P P.length).2) ∧
      connStep inflate maxPacket P m
        = (if (processIncomingData m P P.length).1 then ConnOutcome.respond
            else ConnOutcome.abortProcessStandard,
          (processIncomingData m P P.length).2)) ∧
    (∀ out, inflate body = some out → out.length ≠ P.length →
      connStep inflate maxPacket (compressedPacket body.length P.length R body) m
        = (ConnOutcome.abortDecompress, m)) := by
  obtain ⟨htag, hd4, hd8, hdrop, hlen⟩ :=
    compressedPacket_fields body.length P.length R body hD hE
  have hnotshort : ¬ (compressedPacket body.length P.length R body).length
      < STANDARD_DATA_HEADER_SIZE := by
    rw [hlen]
    unfold STANDARD_DATA_HEADER_SIZE COMPRESSED_HEADER_SIZE at *
    omega
  constructor
  · intro hinf
    constructor
    · unfold connStep
      rw [if_neg hnotshort, if_pos htag]
      unfold compressedStep
      rw [hd4, hd8, if_neg (Nat.not_lt.mpr hmaxP),
        if_neg (by
          rw [hlen]
          push_neg
          right
          exact ⟨hmaxB, le_refl _⟩), hdrop]
      unfold decompressBuffer
      rw [List.take_length]
      simp only [hinf]
      rcases hpr : processIncomingData m P P.length with ⟨b, m'⟩
      cases b <;> simp [hpr]
    · unfold connStep
      rw [if_neg (by
          rw [hstd]
          unfold STANDARD_DATA_HEADER_SIZE
          omega),
        if_neg (headerWord_ne_tag_of_pixeldata hbytes hcmd)]
      simp only [standardStep]
      rw [hcmd, if_pos rfl, ← hstd, if_neg (Nat.not_lt.mpr hmaxP),
        if_neg (lt_irrefl _), List.take_length]
      rcases hpr : processIncomingData m P P.length with ⟨b, m'⟩
      cases b <;> simp [hpr]
  · intro out hinf hne
    unfold connStep
    rw [if_neg hnotshort, if_pos htag]
    unfold compressedStep
    rw [hd4, hd8, if_neg (Nat.not_lt.mpr hmaxP),
      if_neg (by
        rw [hlen]
        push_neg
        right
        exact ⟨hmaxB, le_refl _⟩), hdrop]
    unfold decompressBuffer
    rw [List.take_length]
    simp [hinf, hne]

/-- C9 witness: a concrete 30-byte two-pixel packet sent through the
compressed framing lands in the buffer exactly as its uncompressed
form does, and both paths respond. -/
theorem compressed_roundtrip_equiv_witness :
    connStep
        (fun s => if s = [9, 9, 9, 9, 9, 9, 9, 9] then
          some [3, 0, 0, 0, 2, 0, 0, 0, 5, 0, 0, 0, 0, 0, 0, 0, 7, 0, 0, 0, 0, 0, 0, 0,
            10, 20, 30, 40, 50, 60] else none)
        1000
        (compressedPacket 8 30 0 [9, 9, 9, 9, 9, 9, 9, 9])
        (LEDBufferManager.init 3)
      = connStep
        (fun s => if s = [9, 9, 9, 9, 9, 9, 9, 9] then
          some [3, 0, 0, 0, 2, 0, 0, 0, 5, 0, 0, 0, 0, 0, 0, 0, 7, 0, 0, 0, 0, 0, 0, 0,
            10, 20, 30, 40, 50, 60] else none)
        1000
        [3, 0, 0, 0, 2, 0, 0, 0, 5, 0, 0, 0, 0, 0, 0, 0, 7, 0, 0, 0, 0, 0, 0, 0,
          10, 20, 30, 40, 50, 60]
        (LEDBufferManager.init 3) := by
  have h := (compressed_roundtrip_equiv
    (fun s => if s = [9, 9, 9, 9, 9, 9, 9, 9] then
      some [3, 0, 0, 0, 2, 0, 0, 0, 5, 0, 0, 0, 0, 0, 0, 0, 7, 0, 0, 0, 0, 0, 0, 0,
        10, 20, 30, 40, 50, 60] else none)
    1000 (LEDBufferManager.init 3)
    [3, 0, 0, 0, 2, 0, 0, 0, 5, 0, 0, 0, 0, 0, 0, 0, 7, 0, 0, 0, 0, 0, 0, 0,
      10, 20, 30, 40, 50, 60]
    [9, 9, 9, 9, 9, 9, 9, 9] 0
    (by decide) (by decide) (by decide) (by decide) (by decide) (by decide)
    (by decide) (by decide)).1 rfl
  exact h.1.trans h.2.symm

/-! ## Claim C8: bounded reads into the scratch buffer -/

lemma writeAt_length (buf : List Nat) (off : Nat) (b : List Nat)
    (h : off + b.length ≤ buf.length) :
    (writeAt buf off b).length = buf.length := by
  simp [writeAt, List.length_take, List.length_drop]
  omega

/-- The accumulation loop keeps the buffer at its allocated length and
never counts past `needed`: every write lands at `_cbReceived` with at
most `needed - _cbReceived` bytes. -/
lemma readLoop_preserves (events : List ReadEvent) :
    ∀ (buf : List Nat) (recv needed : Nat), recv < needed →
      needed ≤ buf.length →
      ∀ ok buf' recv', readLoop events buf recv needed = some (ok, buf', recv') →
        buf'.length = buf.length ∧ recv' ≤ needed := by
  induction events with
  | nil => intro buf recv needed _ _ ok buf' recv' h; simp [readLoop] at h
  | cons e rest ih =>
      intro buf recv needed hlt hbuf ok buf' recv' h
      match e with
      | .intr =>
          exact ih buf recv needed hlt hbuf ok buf' recv' h
      | .fail =>
          simp [readLoop] at h
          obtain ⟨_, h2, h3⟩ := h
          subst h2; subst h3
          exact ⟨rfl, by omega⟩
      | .bytes b =>
          rw [readLoop] at h
          by_cases hz : (b.take (needed - recv)).length = 0
          · rw [if_pos hz] at h
            simp only [Option.some.injEq, Prod.mk.injEq] at h
            obtain ⟨_, h2, h3⟩ := h
            subst h2; subst h3
            exact ⟨rfl, by omega⟩
          · rw [if_neg hz] at h
            have hble : (b.take (needed - recv)).length ≤ needed - recv := by
              simp [List.length_take]
            have hwlen : (writeAt buf recv (b.take (needed - recv))).length
                = buf.length :=
              writeAt_length _ _ _ (by omega)
            by_cases hc : recv + (b.take (needed - recv)).length < needed
            · rw [if_pos hc] at h
              have := ih _ _ _ hc (hwlen ▸ hbuf) ok buf' recv' h
              exact ⟨this.1.trans hwlen, this.2⟩
            · rw [if_neg hc] at h
              simp only [Option.some.injEq, Prod.mk.injEq] at h
              obtain ⟨_, h2, h3⟩ := h
              subst h2; subst h3
              exact ⟨hwlen, by omega⟩

/-- C8: `ReadUntilNBytesReceived` returns `true` at once when the bytes
are already buffered; refuses (returns `false`, reading nothing) any
request beyond `_maximumPacketSize = 24 + 3 * maxLEDs`; and otherwise
accumulates reads at offset `_cbReceived` (retrying `EINTR`, failing on
a zero or negative read) without ever growing the scratch buffer or
counting past the request.  Consequently a standard header promising
`24 + 3 * pixel_count` bytes beyond the maximum packet size makes the
read loop abort the connection before any further read. -/
theorem readUntil_bounds (events : List ReadEvent) (buf : List Nat)
    (recv needed maxLEDs : Nat) :
    (needed ≤ recv →
      readUntilNBytesReceived events buf recv needed (maximumPacketSize maxLEDs)
        = some (true, buf, recv)) ∧
    (recv ≤ maximumPacketSize maxLEDs → maximumPacketSize maxLEDs < needed →
      readUntilNBytesReceived events buf recv needed (maximumPacketSize maxLEDs)
        = some (false, buf, recv)) ∧
    (buf.length = maximumPacketSize maxLEDs →
      ∀ ok buf' recv',
        readUntilNBytesReceived events buf recv needed (maximumPacketSize maxLEDs)
          = some (ok, buf', recv') →
        buf'.length = maximumPacketSize maxLEDs ∧ recv' ≤ max needed recv) ∧
    (∀ (inflate : List Nat → Option (List Nat)) (s : List Nat)
        (m : LEDBufferManager),
      STANDARD_DATA_HEADER_SIZE ≤ s.length →
      headerWord s ≠ COMPRESSED_HEADER_TAG →
      WORDFromMemory s 0 = WIFI_COMMAND_PIXELDATA64 →
      maximumPacketSize maxLEDs
          < STANDARD_DATA_HEADER_SIZE + DWORDFromMemory s 4 * LED_DATA_SIZE →
      connStep inflate (maximumPacketSize maxLEDs) s m
        = (ConnOutcome.abortTooManyBytes, m)) := by
  refine ⟨?_, ?_, ?_, ?_⟩
  · intro h
    unfold readUntilNBytesReceived
    rw [if_pos h]
  · intro h1 h2
    unfold readUntilNBytesReceived
    rw [if_neg (by omega), if_pos h2]
  · intro hbuf ok buf' recv' h
    unfold readUntilNBytesReceived at h
    split_ifs at h with hA hB
    · simp only [Option.some.injEq, Prod.mk.injEq] at h
      obtain ⟨_, h2, h3⟩ := h
      subst h2; subst h3
      exact ⟨hbuf, le_max_right _ _⟩
    · simp only [Option.some.injEq, Prod.mk.injEq] at h
      obtain ⟨_, h2, h3⟩ := h
      subst h2; subst h3
      exact ⟨hbuf, le_max_right _ _⟩
    · have := readLoop_preserves events buf recv needed (by omega)
        (by omega) ok buf' recv' h
      exact ⟨this.1.trans hbuf, le_trans this.2 (le_max_left _ _)⟩
  · intro inflate s m hs htg hcm hover
    unfold connStep
    rw [if_neg (Nat.not_lt.mpr hs), if_neg htg]
    simp only [standardStep]
    rw [hcm, if_pos rfl, if_pos hover]

/-- C8 witness: a satisfied request returns at once; an oversized
request is refused with nothing read; and a header promising
`pixel_count = 0xFFFFFFFF` aborts the connection on a 27-byte scratch
(one LED). -/
theorem readUntil_bounds_witness :
    readUntilNBytesReceived [ReadEvent.intr, ReadEvent.bytes [1, 2, 3]]
        (List.replicate 27 0) 24 24 (maximumPacketSize 1)
      = some (true, List.replicate 27 0, 24) ∧
    readUntilNBytesReceived [ReadEvent.bytes [1, 2, 3]]
        (List.replicate 27 0) 0 100 (maximumPacketSize 1)
      = some (false, List.replicate 27 0, 0) ∧
    connStep (fun _ => none) (maximumPacketSize 1)
        ([3, 0, 0, 0, 255, 255, 255, 255] ++ List.replicate 16 0)
        (LEDBufferManager.init 2)
      = (ConnOutcome.abortTooManyBytes, LEDBufferManager.init 2) := by
  have h := readUntil_bounds [ReadEvent.intr, ReadEvent.bytes [1, 2, 3]]
    (List.replicate 27 0) 24 24 1
  have h2 := readUntil_bounds [ReadEvent.bytes [1, 2, 3]]
    (List.replicate 27 0) 0 100 1
  refine ⟨h.1 (by decide), h2.2.1 (by decide) (by decide), ?_⟩
  exact h.2.2.2 (fun _ => none)
    ([3, 0, 0, 0, 255, 255, 255, 255] ++ List.replicate 16 0)
    (LEDBufferManager.init 2) (by decide) (by decide) (by decide) (by decide)

/-! ## Buffer-manager state lemmas -/

lemma maxdouble_pos : (0 : ℚ) < MAXDOUBLE := by
  norm_num [MAXDOUBLE]

lemma LEDBufferManager.age_empty (m : LEDBufferManager) (now : ℚ)
    (h : m.IsEmpty = true) :
    m.AgeOfOldestBuffer now = MAXDOUBLE ∧ m.AgeOfNewestBuffer now = MAXDOUBLE := by
  unfold AgeOfOldestBuffer AgeOfNewestBuffer
  simp [h]

lemma LEDBufferManager.size_eq_zero_iff (m : LEDBufferManager) (hwf : m.Wf) :
    m.Size = 0 ↔ m.IsEmpty = true := by
  obtain ⟨hl, hh, ht⟩ := hwf
  unfold Size IsEmpty
  split_ifs with h <;> simp [decide_eq_true_eq] <;> omega

lemma LEDBufferManager.pop_size_wf (m : LEDBufferManager) (hwf : m.Wf)
    (h : m.IsEmpty = false) :
    (m.PopOldestBuffer).1 = some (m.aptrBuffers.getD m.iTailIndex none) ∧
    (m.PopOldestBuffer).2.Size = m.Size - 1 ∧
    (m.PopOldestBuffer).2.Wf := by
  obtain ⟨hl, hh, ht⟩ := hwf
  have hne : m.iHeadIndex ≠ m.iTailIndex := by
    intro he
    simp [IsEmpty, he] at h
  unfold PopOldestBuffer
  rw [if_neg (by simp [IsEmpty, hne])]
  refine ⟨rfl, ?_, ?_⟩
  · unfold Size
    rcases Nat.lt_or_ge (m.iTailIndex + 1) m.cMaxBuffers with hc | hc
    · simp only [Nat.mod_eq_of_lt hc]
      split_ifs <;> omega
    · have he : m.iTailIndex + 1 = m.cMaxBuffers := by omega
      simp only [he, Nat.mod_self]
      split_ifs <;> omega
  · exact ⟨by simpa using hl, by simpa using hh, Nat.mod_lt _ (by omega)⟩

lemma LEDBufferManager.push_wf (m : LEDBufferManager) (f : LEDBuffer)
    (hwf : m.Wf) : (m.PushNewBuffer f).Wf := by
  obtain ⟨hl, hh, ht⟩ := hwf
  unfold PushNewBuffer
  refine ⟨by simpa using hl, ?_, ?_⟩
  · simpa using Nat.mod_lt (m.iHeadIndex + 1) (by omega)
  · simp only []
    split_ifs
    · exact Nat.mod_lt _ (by omega)
    · simpa using ht

/-! ## Claim C6: empty-buffer semantics -/

/-- C6: on an empty manager, `PopOldestBuffer` returns the empty
sentinel without modifying any state, both age queries return
`MAXDOUBLE` (the largest finite double, a strictly positive "never due"
sentinel), and `PushNewBuffer` always succeeds (it is a total operation
that preserves the structural invariant). -/
theorem emptyBuffer_sentinels (m : LEDBufferManager) (now : ℚ) (f : LEDBuffer)
    (h : m.IsEmpty = true) (hwf : m.Wf) :
    m.PopOldestBuffer = (none, m) ∧
    m.AgeOfOldestBuffer now = MAXDOUBLE ∧
    m.AgeOfNewestBuffer now = MAXDOUBLE ∧
    (0 : ℚ) < MAXDOUBLE ∧
    (m.PushNewBuffer f).Wf := by
  refine ⟨?_, (m.age_empty now h).1, (m.age_empty now h).2, maxdouble_pos,
    m.push_wf f hwf⟩
  unfold LEDBufferManager.PopOldestBuffer
  rw [if_pos h]

/-- C6 witness: the freshly constructed manager of capacity 2 is empty
and exhibits all the sentinels. -/
theorem emptyBuffer_sentinels_witness :
    (LEDBufferManager.init 2).PopOldestBuffer = (none, LEDBufferManager.init 2) ∧
    (LEDBufferManager.init 2).AgeOfOldestBuffer 5 = MAXDOUBLE ∧
    (LEDBufferManager.init 2).AgeOfNewestBuffer 5 = MAXDOUBLE ∧
    (0 : ℚ) < MAXDOUBLE ∧
    ((LEDBufferManager.init 2).PushNewBuffer ⟨[], 1, 0⟩).Wf := by
  exact emptyBuffer_sentinels (LEDBufferManager.init 2) 5 ⟨[], 1, 0⟩
    (by decide) (by decide)

/-! ## Claim C7: the pacing delay -/

/-- The 40 ms cap: taking the minimum against the empty-queue sentinel
age leaves exactly `kMaximumWait` microseconds. -/
lemma maxWait_cap :
    min (truncQ kMaximumWait) (truncQ (MAXDOUBLE * MICROS_PER_SECOND)) = 40000 := by
  have h1 : truncQ kMaximumWait = 40000 := by decide
  have h2 : truncQ (MAXDOUBLE * MICROS_PER_SECOND)
      = (2 ^ 53 - 1) * 2 ^ 971 * 1000000 := by
    norm_num [truncQ, MAXDOUBLE, MICROS_PER_SECOND]
  rw [h1, h2, min_eq_left (by norm_num)]

/-- The drain loop of `RunDrawLoop`, run with fuel `Size`, pops every
due frame: afterwards the head is strictly in the future (or the queue
is empty, whose sentinel age is positive), and well-formedness is
preserved. -/
lemma drainDue_spec (now : ℚ) :
    ∀ (fuel : Nat) (m : LEDBufferManager), m.Wf → m.Size ≤ fuel →
      (drainDue now fuel m).2.Wf ∧
      ¬ (drainDue now fuel m).2.AgeOfOldestBuffer now ≤ 0 := by
  intro fuel
  induction fuel with
  | zero =>
      intro m hwf hsz
      have hemp : m.IsEmpty = true := (m.size_eq_zero_iff hwf).mp (by omega)
      simp only [drainDue]
      refine ⟨hwf, ?_⟩
      rw [(m.age_empty now hemp).1]
      exact not_le.mpr maxdouble_pos
  | succ k ih =>
      intro m hwf hsz
      rw [drainDue]
      by_cases hage : m.AgeOfOldestBuffer now ≤ 0
      · rw [if_pos hage]
        have hemp : m.IsEmpty = false := by
          rcases Bool.eq_false_or_eq_true m.IsEmpty with ht | hf
          · exact absurd ((m.age_empty now ht).1 ▸ hage)
              (not_le.mpr maxdouble_pos)
          · exact hf
        have hsz1 : 0 < m.Size := by
          rcases Nat.eq_zero_or_pos m.Size with h0 | h0
          · exact absurd ((m.size_eq_zero_iff hwf).mp h0) (by simp [hemp])
          · exact h0
        obtain ⟨hfst, hsize, hwf'⟩ := m.pop_size_wf hwf hemp
        rcases hp : m.PopOldestBuffer with ⟨ob, m'⟩
        simp only [hp] at hfst hsize hwf'
        cases ob with
        | none => simp at hfst
        | some b =>
            rcases hd : drainDue now k m' with ⟨rest, m''⟩
            have := ih m' hwf' (by omega)
            rw [hd] at this
            simpa [hd] using this
      · rw [if_neg hage]
        exact ⟨hwf, hage⟩

/-- C7: after each pacer iteration has drained every due frame (the
remaining head age is strictly positive), the sleep duration is the
`int64_t` value `min(kMaximumWait, age_of_oldest * MICROS_PER_SECOND)`,
the pacer sleeps exactly when that delay is positive, and on an empty
queue the delay is exactly 40000 microseconds (40 ms). -/
theorem pacer_delay_spec (now : ℚ) (m : LEDBufferManager) (hwf : m.Wf) :
    ∀ drawn m' delay slept,
      runDrawLoopIteration now m = (drawn, m', delay, slept) →
      ¬ m'.AgeOfOldestBuffer now ≤ 0 ∧
      delay = min (truncQ kMaximumWait)
        (truncQ (m'.AgeOfOldestBuffer now * MICROS_PER_SECOND)) ∧
      (slept = true ↔ 0 < delay) ∧
      (m'.IsEmpty = true → delay = 40000) := by
  intro drawn m' delay slept h
  unfold runDrawLoopIteration at h
  rcases hd : drainDue now m.Size m with ⟨dr, mm⟩
  simp only [hd, Prod.mk.injEq] at h
  obtain ⟨h1, h2, h3, h4⟩ := h
  subst h1; subst h2; subst h3; subst h4
  have hds := drainDue_spec now m.Size m hwf (le_refl _)
  rw [hd] at hds
  refine ⟨hds.2, rfl, by simp, ?_⟩
  intro hemp
  rw [(mm.age_empty now hemp).1, maxWait_cap]

set_option maxRecDepth 4096 in
/-- C7 witness: one pacer iteration on an empty capacity-2 manager at
clock 0 draws nothing, sleeps, and its delay is capped at exactly
40000 microseconds. -/
theorem pacer_delay_spec_witness :
    runDrawLoopIteration 0 (LEDBufferManager.init 2)
      = ([], LEDBufferManager.init 2, 40000, true) ∧
    ¬ (LEDBufferManager.init 2).AgeOfOldestBuffer 0 ≤ 0 ∧
    ((40000 : ℤ) = min (truncQ kMaximumWait)
      (truncQ ((LEDBufferManager.init 2).AgeOfOldestBuffer 0 * MICROS_PER_SECOND))) := by
  have heq : runDrawLoopIteration 0 (LEDBufferManager.init 2)
      = ([], LEDBufferManager.init 2, 40000, true) := by
    unfold runDrawLoopIteration
    have hsz : (LEDBufferManager.init 2).Size = 0 := by decide
    have hage : (LEDBufferManager.init 2).AgeOfOldestBuffer 0 = MAXDOUBLE := by
      simp [LEDBufferManager.AgeOfOldestBuffer, LEDBufferManager.IsEmpty,
        LEDBufferManager.init]
    rw [hsz]
    simp only [drainDue, hage, maxWait_cap]
    norm_num
  have h := pacer_delay_spec 0 (LEDBufferManager.init 2) (by decide)
    [] (LEDBufferManager.init 2) 40000 true heq
  exact ⟨heq, h.1, h.2.1⟩

/-! ## Claim C1: capacity and eviction -/

/-- C1 counterexample: pushing 3 frames back-to-back into a manager
constructed with capacity 2 leaves size 1 (not 2), and the single
remaining frame is the THIRD pushed one (not the second): the ring
keeps one slot spare and evicts as soon as size reaches capacity - 1. -/
theorem pushEviction_counterexample :
    (pushAll (LEDBufferManager.init 2)
        [⟨[], 1, 0⟩, ⟨[], 2, 0⟩, ⟨[], 3, 0⟩]).Size = 1 ∧
    drainAll 1 (pushAll (LEDBufferManager.init 2)
        [⟨[], 1, 0⟩, ⟨[], 2, 0⟩, ⟨[], 3, 0⟩])
      = [some ⟨[], 3, 0⟩] ∧
    ¬ ((pushAll (LEDBufferManager.init 2)
          [⟨[], 1, 0⟩, ⟨[], 2, 0⟩, ⟨[], 3, 0⟩]).Size = 2 ∧
        drainAll 2 (pushAll (LEDBufferManager.init 2)
          [⟨[], 1, 0⟩, ⟨[], 2, 0⟩, ⟨[], 3, 0⟩])
          = [some ⟨[], 2, 0⟩, some ⟨[], 3, 0⟩]) := by
  decide

/-- Closed-form state of a fresh capacity-`C` manager after pushing the
frames `fs` in order: the size saturates at `C - 1` (one ring slot stays
spare), the head walks the ring at `|fs| mod C`, and the occupied window
starting at the tail holds the last `min |fs| (C-1)` frames in push
order. -/
def PushInv (C : Nat) (fs : List LEDBuffer) (m : LEDBufferManager) : Prop :=
  m.cMaxBuffers = C ∧
  m.aptrBuffers.length = C ∧
  m.iHeadIndex = fs.length % C ∧
  m.iTailIndex = (fs.length - min fs.length (C - 1)) % C ∧
  m.Size = min fs.length (C - 1) ∧
  ∀ i < min fs.length (C - 1),
    m.aptrBuffers.getD ((m.iTailIndex + i) % C) none
      = fs[fs.length - min fs.length (C - 1) + i]?

lemma pushAll_append (m : LEDBufferManager) (fs : List LEDBuffer)
    (f : LEDBuffer) :
    pushAll m (fs ++ [f]) = (pushAll m fs).PushNewBuffer f := by
  simp [pushAll, List.foldl_append]

lemma pushInv_init (C : Nat) (_hC : 2 ≤ C) :
    PushInv C [] (LEDBufferManager.init C) := by
  refine ⟨rfl, by simp [LEDBufferManager.init], by simp [LEDBufferManager.init],
    by simp [LEDBufferManager.init], by simp [LEDBufferManager.init,
      LEDBufferManager.Size], ?_⟩
  intro i hi
  simp at hi

lemma LEDBufferManager.push_eq (m : LEDBufferManager) (f : LEDBuffer) :
    m.PushNewBuffer f =
      ⟨m.aptrBuffers.set m.iHeadIndex (some f),
        (m.iHeadIndex + 1) % m.cMaxBuffers,
        if (m.iHeadIndex + 1) % m.cMaxBuffers = m.iTailIndex then
          (m.iTailIndex + 1) % m.cMaxBuffers
        else m.iTailIndex,
        m.cMaxBuffers⟩ := rfl

lemma LEDBufferManager.size_mk (buf : List (Option LEDBuffer)) (hd tl c : Nat) :
    LEDBufferManager.Size ⟨buf, hd, tl, c⟩ =
      if hd < tl then hd + c - tl else hd - tl := rfl

lemma pushInv_step (C : Nat) (hC : 2 ≤ C) (fs : List LEDBuffer)
    (f : LEDBuffer) (m : LEDBufferManager) (h : PushInv C fs m) :
    PushInv C (fs ++ [f]) (m.PushNewBuffer f) := by
  obtain ⟨hc, hl, hh, ht, hs, hcont⟩ := h
  have hCpos : 0 < C := by omega
  have hlen1 : (fs ++ [f]).length = fs.length + 1 := by simp
  rcases Nat.lt_or_ge fs.length (C - 1) with hk | hk
  · -- still filling the ring: no eviction
    have hmin0 : min fs.length (C - 1) = fs.length := by omega
    have hmin1 : min (fs.length + 1) (C - 1) = fs.length + 1 := by omega
    have hhead : m.iHeadIndex = fs.length := by
      rw [hh, Nat.mod_eq_of_lt (by omega)]
    have htail : m.iTailIndex = 0 := by
      rw [ht, hmin0, Nat.sub_self, Nat.zero_mod]
    have hnoev : ¬ ((m.iHeadIndex + 1) % m.cMaxBuffers = m.iTailIndex) := by
      rw [hc, hhead, htail, Nat.mod_eq_of_lt (by omega)]
      omega
    rw [LEDBufferManager.push_eq, if_neg hnoev]
    refine ⟨hc, by simpa using hl, ?_, ?_, ?_, ?_⟩
    · show (m.iHeadIndex + 1) % m.cMaxBuffers = (fs ++ [f]).length % C
      rw [hc, hhead, hlen1]
    · show m.iTailIndex =
        ((fs ++ [f]).length - min (fs ++ [f]).length (C - 1)) % C
      rw [htail, hlen1, hmin1, Nat.sub_self, Nat.zero_mod]
    · rw [LEDBufferManager.size_mk, hc, hhead, htail, hlen1, hmin1,
        Nat.mod_eq_of_lt (by omega)]
      split_ifs <;> omega
    · intro i hi
      rw [hlen1, hmin1] at hi ⊢
      show (m.aptrBuffers.set m.iHeadIndex (some f)).getD
          ((m.iTailIndex + i) % C) none = (fs ++ [f])[fs.length + 1 - (fs.length + 1) + i]?
      rw [htail, Nat.zero_add, Nat.mod_eq_of_lt (by omega), Nat.sub_self,
        Nat.zero_add]
      rcases Nat.lt_or_ge i fs.length with hilt | hige
      · rw [List.getD_eq_getElem?_getD,
          List.getElem?_set_ne (by rw [hhead]; omega),
          List.getElem?_append_left hilt, ← List.getD_eq_getElem?_getD]
        have hcI := hcont i (by omega)
        rw [htail, Nat.zero_add, Nat.mod_eq_of_lt (by omega), hmin0,
          Nat.sub_self, Nat.zero_add] at hcI
        exact hcI
      · have hieq : i = fs.length := by omega
        subst hieq
        rw [List.getD_eq_getElem?_getD, hhead,
          List.getElem?_set_self (by rw [hl]; omega),
          List.getElem?_concat_length]
        rfl
  · -- saturated ring: every push evicts the oldest
    have hmin0 : min fs.length (C - 1) = C - 1 := by omega
    have hmin1 : min (fs.length + 1) (C - 1) = C - 1 := by omega
    have htail : m.iTailIndex = (fs.length + 1) % C := by
      rw [ht, hmin0, ← Nat.add_mod_right]
      congr 1
      omega
    have hev : (m.iHeadIndex + 1) % m.cMaxBuffers = m.iTailIndex := by
      rw [hc, hh, htail, Nat.mod_add_mod]
    rw [LEDBufferManager.push_eq, if_pos hev]
    refine ⟨hc, by simpa using hl, ?_, ?_, ?_, ?_⟩
    · show (m.iHeadIndex + 1) % m.cMaxBuffers = (fs ++ [f]).length % C
      rw [hc, hh, hlen1, Nat.mod_add_mod]
    · show (m.iTailIndex + 1) % m.cMaxBuffers =
        ((fs ++ [f]).length - min (fs ++ [f]).length (C - 1)) % C
      have hr : (fs.length + 1 - (C - 1)) % C = (fs.length + 1 + 1) % C := by
        rw [← Nat.add_mod_right (fs.length + 1 - (C - 1)) C]
        congr 1
        omega
      rw [hc, htail, hlen1, hmin1, Nat.mod_add_mod, hr]
    · rw [LEDBufferManager.size_mk, hc, hh, htail, hlen1, hmin1,
        Nat.mod_add_mod, Nat.mod_add_mod]
      have h1 : (fs.length + 1) % C < C := Nat.mod_lt _ hCpos
      rcases Nat.lt_or_ge ((fs.length + 1) % C) (C - 1) with hlt | hge
      · have h2 : (fs.length + 1 + 1) % C = (fs.length + 1) % C + 1 := by
          rw [← Nat.mod_add_mod]
          exact Nat.mod_eq_of_lt (by omega)
        rw [h2]
        split_ifs <;> omega
      · have heq1 : (fs.length + 1) % C = C - 1 := by omega
        have h2 : (fs.length + 1 + 1) % C = 0 := by
          rw [← Nat.mod_add_mod, heq1, show C - 1 + 1 = C by omega,
            Nat.mod_self]
        rw [h2, heq1]
        split_ifs <;> omega
    · intro i hi
      rw [hlen1, hmin1] at hi ⊢
      show (m.aptrBuffers.set m.iHeadIndex (some f)).getD
          (((m.iTailIndex + 1) % m.cMaxBuffers + i) % C) none
        = (fs ++ [f])[fs.length + 1 - (C - 1) + i]?
      rw [hc, htail, Nat.mod_add_mod, Nat.add_assoc, Nat.mod_add_mod,
        show fs.length + 1 + (1 + i) = fs.length + 1 + 1 + i by omega]
      rcases Nat.lt_or_ge i (C - 2) with hilt | hige
      · -- untouched slots still hold the older frames
        have hne : (fs.length + 1 + 1 + i) % C ≠ m.iHeadIndex := by
          rw [hh]
          intro heq
          rw [show fs.length + 1 + 1 + i = fs.length + (2 + i) by omega,
            Nat.add_mod] at heq
          have hb1 : fs.length % C < C := Nat.mod_lt _ hCpos
          have hb2 : (2 + i) % C = 2 + i := Nat.mod_eq_of_lt (by omega)
          rw [hb2] at heq
          rcases Nat.lt_or_ge (fs.length % C + (2 + i)) C with hx | hx
          · rw [Nat.mod_eq_of_lt hx] at heq
            omega
          · have hx2 : fs.length % C + (2 + i) - C < C := by omega
            rw [Nat.mod_eq_sub_mod hx, Nat.mod_eq_of_lt hx2] at heq
            omega
        rw [List.getD_eq_getElem?_getD, List.getElem?_set_ne (fun heq => hne heq.symm),
          ← List.getD_eq_getElem?_getD]
        have hcI := hcont (i + 1) (by omega)
        rw [htail, hmin0, Nat.mod_add_mod,
          show fs.length + 1 + (i + 1) = fs.length + 1 + 1 + i by omega] at hcI
        rw [hcI, List.getElem?_append_left (by omega)]
        congr 1
        omega
      · -- the freshly written head slot holds the new frame
        have hieq : i = C - 2 := by omega
        subst hieq
        have hidx : (fs.length + 1 + 1 + (C - 2)) % C = m.iHeadIndex := by
          rw [hh, show fs.length + 1 + 1 + (C - 2) = fs.length + C by omega,
            Nat.add_mod_right]
        rw [hidx, List.getD_eq_getElem?_getD,
          List.getElem?_set_self (by rw [hl, hh]; exact Nat.mod_lt _ hCpos),
          show fs.length + 1 - (C - 1) + (C - 2) = fs.length by omega,
          List.getElem?_concat_length]
        rfl

lemma LEDBufferManager.pop_eq (m : LEDBufferManager) (h : m.IsEmpty = false) :
    m.PopOldestBuffer = (some (m.aptrBuffers.getD m.iTailIndex none),
      ⟨m.aptrBuffers.set m.iTailIndex none, m.iHeadIndex,
        (m.iTailIndex + 1) % m.cMaxBuffers, m.cMaxBuffers⟩) := by
  unfold LEDBufferManager.PopOldestBuffer
  rw [if_neg (by simp [h])]

lemma LEDBufferManager.size_lt (m : LEDBufferManager) (hwf : m.Wf) :
    m.Size < m.cMaxBuffers := by
  obtain ⟨hl, hh, ht⟩ := hwf
  unfold LEDBufferManager.Size
  split_ifs <;> omega

/-- Draining a manager whose occupied window holds the frames `L` in
order returns exactly `L` (each wrapped in the owning pointer). -/
lemma drainAll_spec :
    ∀ (s : Nat) (m : LEDBufferManager) (L : List LEDBuffer),
      m.Wf → m.Size = s → L.length = s →
      (∀ i < s, m.aptrBuffers.getD ((m.iTailIndex + i) % m.cMaxBuffers) none
        = L[i]?) →
      drainAll s m = L.map some := by
  intro s
  induction s with
  | zero =>
      intro m L hwf hs hL hcont
      cases L with
      | nil => simp [drainAll]
      | cons a L' => simp at hL
  | succ k ih =>
      intro m L hwf hs hL hcont
      cases L with
      | nil => simp at hL
      | cons l0 L' =>
          obtain ⟨hlm, hhm, htm⟩ := hwf
          have hemp : m.IsEmpty = false := by
            rcases Bool.eq_false_or_eq_true m.IsEmpty with ht' | hf'
            · have := (m.size_eq_zero_iff ⟨hlm, hhm, htm⟩).mpr ht'
              omega
            · exact hf'
          have h0 := hcont 0 (by omega)
          rw [Nat.add_zero, Nat.mod_eq_of_lt htm] at h0
          have hps := m.pop_size_wf ⟨hlm, hhm, htm⟩ hemp
          rw [m.pop_eq hemp] at hps
          have hszlt : m.Size < m.cMaxBuffers :=
            m.size_lt ⟨hlm, hhm, htm⟩
          rw [drainAll, m.pop_eq hemp]
          show m.aptrBuffers.getD m.iTailIndex none ::
              drainAll k ⟨m.aptrBuffers.set m.iTailIndex none, m.iHeadIndex,
                (m.iTailIndex + 1) % m.cMaxBuffers, m.cMaxBuffers⟩
            = (l0 :: L').map some
          rw [h0, List.map_cons]
          simp only [List.getElem?_cons_zero]
          congr 1
          apply ih
          · exact hps.2.2
          · rw [hps.2.1, hs]
            omega
          · simpa using hL
          · intro i hi
            show (m.aptrBuffers.set m.iTailIndex none).getD
                (((m.iTailIndex + 1) % m.cMaxBuffers + i) % m.cMaxBuffers) none
              = L'[i]?
            rw [Nat.mod_add_mod]
            have hnet : (m.iTailIndex + 1 + i) % m.cMaxBuffers ≠ m.iTailIndex := by
              intro heq
              rw [show m.iTailIndex + 1 + i = m.iTailIndex + (1 + i) by omega,
                Nat.add_mod] at heq
              have hb1 : m.iTailIndex % m.cMaxBuffers = m.iTailIndex :=
                Nat.mod_eq_of_lt htm
              have hb2 : (1 + i) % m.cMaxBuffers = 1 + i :=
                Nat.mod_eq_of_lt (by omega)
              rw [hb1, hb2] at heq
              rcases Nat.lt_or_ge (m.iTailIndex + (1 + i)) m.cMaxBuffers with hx | hx
              · rw [Nat.mod_eq_of_lt hx] at heq
                omega
              · have hx2 : m.iTailIndex + (1 + i) - m.cMaxBuffers < m.cMaxBuffers := by
                  omega
                rw [Nat.mod_eq_sub_mod hx, Nat.mod_eq_of_lt hx2] at heq
                omega
            rw [List.getD_eq_getElem?_getD,
              List.getElem?_set_ne (fun heq => hnet heq.symm),
              ← List.getD_eq_getElem?_getD]
            have hcI := hcont (i + 1) (by omega)
            rw [show m.iTailIndex + (i + 1) = m.iTailIndex + 1 + i by omega]
              at hcI
            rw [hcI]
            simp

lemma pushInv_all (C : Nat) (hC : 2 ≤ C) (fs : List LEDBuffer) :
    PushInv C fs (pushAll (LEDBufferManager.init C) fs) := by
  induction fs using List.reverseRecOn with
  | nil => exact pushInv_init C hC
  | append_singleton gs g ih =>
      rw [pushAll_append]
      exact pushInv_step C hC gs g _ ih

/-- C1 amended: the ring keeps one slot spare: with construction-time
capacity `C ≥ 2`, a push arriving when size equals `C - 1` drops the
oldest (head) frame before appending, so pushing `C + 1` frames
back-to-back into a fresh manager leaves size `C - 1`, and subsequent
pops return the frames in push order starting from the THIRD pushed
frame. -/
theorem pushEviction_amended (C : Nat) (hC : 2 ≤ C) (fs : List LEDBuffer)
    (hlen : fs.length = C + 1) :
    (pushAll (LEDBufferManager.init C) fs).Size = C - 1 ∧
    drainAll ((pushAll (LEDBufferManager.init C) fs).Size)
        (pushAll (LEDBufferManager.init C) fs)
      = (fs.drop 2).map some := by
  obtain ⟨hc, hl, hh, ht, hs, hcont⟩ := pushInv_all C hC fs
  have hCpos : 0 < C := by omega
  have hmin : min fs.length (C - 1) = C - 1 := by omega
  have hsz : (pushAll (LEDBufferManager.init C) fs).Size = C - 1 := by
    rw [hs, hmin]
  refine ⟨hsz, ?_⟩
  rw [hsz]
  apply drainAll_spec
  · exact ⟨hl.trans hc.symm, by rw [hh, hc]; exact Nat.mod_lt _ hCpos,
      by rw [ht, hc]; exact Nat.mod_lt _ hCpos⟩
  · exact hsz
  · simp [hlen]
  · intro i hi
    rw [hc]
    have hcI := hcont i (by omega)
    rw [hmin, hlen, show C + 1 - (C - 1) + i = 2 + i by omega] at hcI
    rw [hcI, List.getElem?_drop]

/-- C1 amended witness: four frames pushed into a fresh capacity-3
manager leave size 2, and draining returns the third and fourth
frames. -/
theorem pushEviction_amended_witness :
    (pushAll (LEDBufferManager.init 3)
        [⟨[], 1, 0⟩, ⟨[], 2, 0⟩, ⟨[], 3, 0⟩, ⟨[], 4, 0⟩]).Size = 2 ∧
    drainAll ((pushAll (LEDBufferManager.init 3)
        [⟨[], 1, 0⟩, ⟨[], 2, 0⟩, ⟨[], 3, 0⟩, ⟨[], 4, 0⟩]).Size)
        (pushAll (LEDBufferManager.init 3)
          [⟨[], 1, 0⟩, ⟨[], 2, 0⟩, ⟨[], 3, 0⟩, ⟨[], 4, 0⟩])
      = [some ⟨[], 3, 0⟩, some ⟨[], 4, 0⟩] := by
  have h := pushEviction_amended 3 (by norm_num)
    [⟨[], 1, 0⟩, ⟨[], 2, 0⟩, ⟨[], 3, 0⟩, ⟨[], 4, 0⟩] rfl
  exact ⟨h.1, h.2⟩

end NightDriverPi
